import Mathlib

/-!
Verification of the invoice-reconciliation pipeline of the Kompensaty
repository against its natural-language specification.

The Python sources are shallowly embedded as executable Lean definitions:

* strings are Lean `String`s manipulated through ASCII-level character
  functions mirroring the Python string operations used by the code
  (`str.lower`, `str.endswith`, substring membership `in`, `str.split`,
  `str.strip`);
* the Exchange message store is a tree of folders carrying messages and
  attachments; the `exchangelib` query
  `filter(has_attachments=True, datetime_received__gte=s,
  datetime_received__lt=e).order_by('-datetime_received')` is embedded as a
  filter over the folder's message list followed by a descending insertion
  sort on the receive timestamp (an `Int`; `timedelta(days=n)` becomes
  `n * 86400`);
* fallible store calls are embedded with `Except`; a Boolean oracle tells
  whether a given store query raises a transient error, mirroring the
  `try/except` structure of the source;
* the regex engine used by `pdf_processor` is an abstract oracle
  (`RegexEngine`): whether a pattern compiles, and the list of matches it
  produces on a text — `re.error` on a malformed pattern is the
  `compileOk = false` case;
* a Python `set` of strings is embedded as a duplicate-free list in
  insertion order (`pySetAdd`); since CPython's `list(s)` enumerates a set
  in an unspecified, hash-dependent order, the conversion of a set to a
  list is a parameter `enum` constrained only to permute its input;
* the cancellation event (`stop_event`) is modelled as never signalled:
  every claim below concerns uncancelled behaviour.
-/

/-! ### ASCII string primitives mirroring the Python string operations -/

/-- ASCII lowercasing of one character, as done by `str.lower` on the ASCII
identifiers and filenames this program manipulates. -/
def lcChar (c : Char) : Char :=
  if 'A' ≤ c ∧ c ≤ 'Z' then Char.ofNat (c.toNat + 32) else c

/-- `str.lower`. -/
def pyLower (s : String) : String :=
  String.mk (s.toList.map lcChar)

/-- Does the character list start with the given pattern list? -/
def chBeginsWith : List Char → List Char → Bool
  | _, [] => true
  | [], _ :: _ => false
  | c :: cs, p :: ps => (c = p) && chBeginsWith cs ps

/-- Substring membership on character lists (Python `sub in s`). -/
def chContains : List Char → List Char → Bool
  | [], sub => sub.isEmpty
  | c :: tl, sub => chBeginsWith (c :: tl) sub || chContains tl sub

/-- Python `sub in s` on strings. -/
def strContains (s sub : String) : Bool :=
  chContains s.toList sub.toList

/-- Python `s.endswith(suf)`. -/
def strEndsWith (s suf : String) : Bool :=
  chBeginsWith s.toList.reverse suf.toList.reverse

/-- Python whitespace class `\s` (ASCII part). -/
def isPySpace (c : Char) : Bool :=
  c = ' ' || c = '\t' || c = '\n' || c = '\r' || c = '\x0b' || c = '\x0c'

/-- ASCII digit test, the `\d` class of the patterns used by the code. -/
def isAsciiDigit (c : Char) : Bool :=
  '0' ≤ c && c ≤ '9'

/-- Accumulator pass of Python `str.split()` with no argument: split on runs
of whitespace, dropping empty pieces. -/
def pyWordsAux : List Char → List Char → List (List Char)
  | [], acc => if acc.isEmpty then [] else [acc.reverse]
  | c :: cs, acc =>
    if isPySpace c then
      if acc.isEmpty then pyWordsAux cs [] else acc.reverse :: pyWordsAux cs []
    else pyWordsAux cs (c :: acc)

/-- Python `str.split()` with no argument. -/
def pyWords (l : List Char) : List (List Char) :=
  pyWordsAux l []

/-- Join word lists with a single space (`" ".join(words)`). -/
def joinWords : List (List Char) → List Char
  | [] => []
  | [w] => w
  | w :: ws => w ++ ' ' :: joinWords ws

/-- Python `str.strip()`: drop leading and trailing whitespace. -/
def pyStrip (l : List Char) : List Char :=
  ((l.dropWhile isPySpace).reverse.dropWhile isPySpace).reverse

/-! ### Fragment derivation (`email_service.py:118`)

`re.sub(r'[^\w\d.-]', '_', invoice_number).lower()` — every character
outside the class word-character / digit / dot / hyphen is replaced by an
underscore, then the result is lowercased.  `\w` is modelled by
`Char.isAlphanum` plus underscore (the ASCII reading of the Python word
class, which this program's identifiers use). -/

/-- The `\w` character class (ASCII): letters, digits, underscore. -/
def isWordCharAscii (c : Char) : Bool :=
  c.isAlphanum || c = '_'

/-- One character of the source substitution `[^\w\d.-] -> '_'`. -/
def fragCharSource (c : Char) : Char :=
  if isWordCharAscii c || isAsciiDigit c || c = '.' || c = '-' then c else '_'

/-- `EmailService._find_single_invoice_attachment`, line 118: the
filename-search fragment derived from an invoice identifier. -/
def searchFragment (invoice_number : String) : String :=
  pyLower (String.mk (invoice_number.toList.map fragCharSource))

/-- Modelled from the spec's words (for comparison with `searchFragment`):
"replace every character that is not alphanumeric, a dot, or a hyphen with
an underscore, then lowercase". -/
def fragCharSpec (c : Char) : Char :=
  if c.isAlphanum || c = '.' || c = '-' then c else '_'

/-- The spec's fingerprint derivation, to be compared with the source's. -/
def specFragment (invoice_number : String) : String :=
  pyLower (String.mk (invoice_number.toList.map fragCharSpec))

/-- The two per-character substitutions agree: they differ syntactically only
on `'_'` (kept by the source's `\w`, replaced by the spec) where both
produce `'_'`, and `\d ⊆ \w` makes the digit disjunct redundant. -/
theorem fragChar_source_eq_spec (c : Char) : fragCharSource c = fragCharSpec c := by
  by_cases h : c = '_'
  · subst h; rfl
  · unfold fragCharSource fragCharSpec isWordCharAscii
    have hne : (c = '_' : Bool) = false := by
      simp [h]
    have hdig : isAsciiDigit c = true → c.isAlphanum = true := by
      intro hc
      unfold isAsciiDigit at hc
      simp only [Bool.and_eq_true, decide_eq_true_eq] at hc
      simp [Char.isAlphanum, Char.isDigit, Char.isAlpha]
      right
      exact ⟨hc.1, hc.2⟩
    rcases hdigCase : isAsciiDigit c with _ | _
    · simp [hne, hdigCase]
    · simp [hne, hdigCase, hdig hdigCase]

/-- Claim C5: the filename-search fragment is a pure, deterministic function
of the identifier alone, computing exactly the spec's substitution (every
character that is not alphanumeric, a dot, or a hyphen becomes an
underscore, then lowercase); in particular identifier `"F/M 123-45"` yields
fragment `"f_m_123-45"`. -/
theorem claim_C5 :
    (∀ invoice_number : String, searchFragment invoice_number = specFragment invoice_number) ∧
      searchFragment "F/M 123-45" = "f_m_123-45" := by
  constructor
  · intro inv
    unfold searchFragment specFragment
    have : inv.toList.map fragCharSource = inv.toList.map fragCharSpec :=
      List.map_congr_left fun c _ => fragChar_source_eq_spec c
    rw [this]
  · decide

/-! ### Message-store data model (`exchange_client.py`, `email_service.py`) -/

/-- An attachment of a message; `isFile` models the
`isinstance(attachment, FileAttachment)` test. -/
structure Att where
  isFile : Bool
  name : String
deriving DecidableEq

/-- A message of a folder.  `received` is the `datetime_received` timestamp
in seconds; `hasAtts` is the server-side `has_attachments` flag used by the
query, kept separate from the actual attachment list which the code
re-checks with `if not email.attachments`. -/
structure EmailMsg where
  subject : String
  received : Int
  hasAtts : Bool
  attachments : List Att
deriving DecidableEq

/-- A folder of the store: name, messages, child folders. -/
inductive FolderNode : Type where
  | mk : String → List EmailMsg → List FolderNode → FolderNode

def FolderNode.name : FolderNode → String
  | .mk n _ _ => n

def FolderNode.msgs : FolderNode → List EmailMsg
  | .mk _ m _ => m

def FolderNode.children : FolderNode → List FolderNode
  | .mk _ _ c => c

/-- The account's well-known entry points (`account.inbox`, `account.sent`,
`account.root`); each may be unavailable, which the source guards with
`if not current_folder`. -/
structure MailStore where
  inbox : Option FolderNode
  sent : Option FolderNode
  root : Option FolderNode

/-- Python `path.split('/')` (split on a single character, keeping empty
pieces). -/
def splitOnChar (sep : Char) : List Char → List (List Char)
  | [] => [[]]
  | c :: cs =>
    let r := splitOnChar sep cs
    if c = sep then [] :: r
    else
      match r with
      | [] => [[c]]
      | h :: t => (c :: h) :: t

/-- Descend from a start folder along the remaining path parts
(`exchange_client.py:115-137`): empty parts are skipped; at each part the
first child whose lowercased name equals the lowercased part is entered;
a missing child raises `FolderNotFoundError` (re-wrapped by the enclosing
`except Exception` handler, still a `FolderNotFoundError`). -/
def navigateFolders : FolderNode → List String → Except String FolderNode
  | f, [] => .ok f
  | f, p :: rest =>
    if p = "" then navigateFolders f rest
    else
      match f.children.find? (fun child => pyLower child.name = pyLower p) with
      | some nf => navigateFolders nf rest
      | none => .error ("Folder " ++ p ++ " nie istnieje w " ++ f.name)

/-- `ExchangeClient.get_folder_by_path` (`exchange_client.py:81-140`).
An empty path raises; the first segment may select the inbox or sent roots
(consuming the segment) or else resolution starts at the generic root; an
unavailable start folder raises; then the path is walked by
`navigateFolders`.  Resolution failure always surfaces as a raised
`FolderNotFoundError` (the `Except.error` case) — the function has no
`None`-returning failure path. -/
def get_folder_by_path (store : MailStore) (folder_path : String) : Except String FolderNode :=
  if folder_path = "" then .error "Pusta ścieżka folderu"
  else
    let path_parts := (splitOnChar '/' folder_path.toList).map String.mk
    let first_part := pyLower (path_parts.headD "")
    let startAndRest : Option FolderNode × List String :=
      if first_part = "inbox" ∨ first_part = "skrzynka odbiorcza" then
        (store.inbox, path_parts.tail)
      else if first_part = "sent items" ∨ first_part = "elementy wysłane" then
        (store.sent, path_parts.tail)
      else
        (store.root, path_parts)
    match startAndRest.1 with
    | none => .error ("Nie można określić folderu startowego dla: " ++ folder_path)
    | some f => navigateFolders f startAndRest.2

/-! ### Per-identifier search (`EmailService._find_single_invoice_attachment`) -/

/-- A transient store error raised while querying or iterating messages. -/
inductive StoreError : Type where
  | transient
deriving DecidableEq

/-- Acceptance test for one attachment (`email_service.py:143-147`): it is a
file attachment whose lowercased name ends with `"." + extension.lower()`
and contains the derived fragment. -/
def attMatches (search_fragment file_extension : String) (a : Att) : Bool :=
  a.isFile && strEndsWith (pyLower a.name) ("." ++ pyLower file_extension)
    && strContains (pyLower a.name) search_fragment

/-- The server-side query filter: `has_attachments=True`,
`datetime_received__gte=start`, `datetime_received__lt=end`. -/
def windowPred (startD endD : Int) (m : EmailMsg) : Bool :=
  m.hasAtts && decide (startD ≤ m.received) && decide (m.received < endD)

/-- Newest-first comparison used by `order_by('-datetime_received')`. -/
def recvGE (a b : EmailMsg) : Prop :=
  b.received ≤ a.received

instance : DecidableRel recvGE := fun a b =>
  inferInstanceAs (Decidable (b.received ≤ a.received))

instance : IsTotal EmailMsg recvGE :=
  ⟨fun a b => Int.le_total b.received a.received⟩

instance : IsTrans EmailMsg recvGE :=
  ⟨fun _ _ _ hab hbc => le_trans hbc hab⟩

/-- The query result: messages of the folder passing the filter, ordered
newest-first. -/
def searchWindow (folder : FolderNode) (startD endD : Int) : List EmailMsg :=
  List.insertionSort recvGE (folder.msgs.filter (windowPred startD endD))

/-- The scanning loop (`email_service.py:130-151`): messages in query order;
messages without attachments are skipped; within a message, attachments in
order, and the first acceptable one is returned immediately. -/
def scanEmails (search_fragment file_extension : String) : List EmailMsg → Option Att
  | [] => none
  | m :: rest =>
    if m.attachments.isEmpty then scanEmails search_fragment file_extension rest
    else
      match m.attachments.find? (attMatches search_fragment file_extension) with
      | some a => some a
      | none => scanEmails search_fragment file_extension rest

/-- `EmailService._find_single_invoice_attachment` (`email_service.py:100-160`).
`storeFail` tells whether the underlying store query raises a transient
error for this call; the surrounding `except Exception` handler turns any
such error into a logged `None`. -/
def find_single_invoice_attachment (folder : FolderNode) (storeFail : Bool)
    (invoice_number : String) (startD endD : Int) (file_extension : String) : Option Att :=
  let search_fragment := searchFragment invoice_number
  let queried : Except StoreError (List EmailMsg) :=
    if storeFail then .error .transient else .ok (searchWindow folder startD endD)
  match queried with
  | .error _ => none
  | .ok emails => scanEmails search_fragment file_extension emails

/-- `timedelta(days=n)` in seconds. -/
def days (n : Int) : Int :=
  n * 86400

/-- The per-identifier loop of `EmailService.find_related_invoices`
(`email_service.py:85-96`): each identifier contributes the attachment its
search returns, when any. -/
def findRelatedLoop (folder : FolderNode) (startD endD : Int) (file_extension : String)
    (storeFail : String → Bool) (extracted : List String) : List Att :=
  extracted.foldl
    (fun acc inv =>
      match find_single_invoice_attachment folder (storeFail inv) inv startD endD file_extension with
      | some a => acc ++ [a]
      | none => acc)
    []

/-- `EmailService.find_related_invoices` (`email_service.py:35-98`), with
the cancellation event never signalled.  An empty identifier list
short-circuits; then the invoice folder is resolved — note that
`get_folder_by_path` raises on failure, so the `if not folder` branch of
the source (lines 62-64) is unreachable and a resolution failure
propagates out of this function; then the window is computed
(`end = reference + 2 days`, `start = reference - monthsBack*31 days`) and
the per-identifier loop runs. -/
def find_related_invoices (store : MailStore) (extracted : List String)
    (reference_date : Int) (folder_path : String) (months_back : Nat)
    (file_extension : String) (storeFail : String → Bool) : Except String (List Att) :=
  if extracted.isEmpty then .ok []
  else
    match get_folder_by_path store folder_path with
    | .error e => .error e
    | .ok folder =>
      let endD := reference_date + days 2
      let startD := reference_date - days ((months_back : Int) * 31)
      .ok (findRelatedLoop folder startD endD file_extension storeFail extracted)

/-! ### Missing-invoice computation (`EmailService._find_missing_invoices`) -/

/-- Insertion into a Python `set` of strings, embedded as a duplicate-free
list in insertion order. -/
def pySetAdd (s : List String) (x : String) : List String :=
  if x ∈ s then s else s ++ [x]

/-- `EmailService._find_missing_invoices` (`email_service.py:339-359`):
collect the set of lowercased found-attachment names, then keep every
extracted identifier whose derived fragment occurs in none of them. -/
def find_missing_invoices (extracted : List String) (found : List Att) : List String :=
  let found_names_lower := found.foldl (fun s a => pySetAdd s (pyLower a.name)) []
  extracted.filter (fun inv =>
    ! found_names_lower.any (fun filename => strContains filename (searchFragment inv)))

/-- The matching relation the reporting code uses: the identifier's derived
fragment occurs in the attachment's lowercased name. -/
def matchesIdentifier (inv : String) (a : Att) : Bool :=
  strContains (pyLower a.name) (searchFragment inv)

/-! ### Lemmas about the per-identifier search -/

theorem pySetAdd_mem (s : List String) (x y : String) :
    y ∈ pySetAdd s x ↔ y ∈ s ∨ y = x := by
  unfold pySetAdd
  split
  · constructor
    · exact Or.inl
    · rintro (h | rfl)
      · exact h
      · assumption
  · simp [List.mem_append]

theorem pySetAdd_nodup (s : List String) (x : String) (h : s.Nodup) :
    (pySetAdd s x).Nodup := by
  unfold pySetAdd
  split
  · exact h
  · rename_i hx
    simp [List.nodup_append, h, hx]

theorem namesFold_mem (found : List Att) (s0 : List String) (y : String) :
    y ∈ found.foldl (fun s a => pySetAdd s (pyLower a.name)) s0 ↔
      y ∈ s0 ∨ ∃ a ∈ found, pyLower a.name = y := by
  induction found generalizing s0 with
  | nil => simp
  | cons a tl ih =>
    simp only [List.foldl_cons, ih, pySetAdd_mem, List.mem_cons]
    constructor
    · rintro ((h | rfl) | ⟨b, hb, rfl⟩)
      · exact Or.inl h
      · exact Or.inr ⟨a, Or.inl rfl, rfl⟩
      · exact Or.inr ⟨b, Or.inr hb, rfl⟩
    · rintro (h | ⟨b, (rfl | hb), rfl⟩)
      · exact Or.inl (Or.inl h)
      · exact Or.inl (Or.inr rfl)
      · exact Or.inr ⟨b, hb, rfl⟩

/-- Membership characterisation of `find_missing_invoices`: an identifier is
reported missing exactly when it was extracted and its fragment occurs in no
found attachment's lowercased name. -/
theorem missing_mem_iff (extracted : List String) (found : List Att) (inv : String) :
    inv ∈ find_missing_invoices extracted found ↔
      inv ∈ extracted ∧ ∀ a ∈ found, matchesIdentifier inv a = false := by
  unfold find_missing_invoices
  rw [List.mem_filter]
  constructor
  · rintro ⟨hm, hp⟩
    refine ⟨hm, fun a ha => ?_⟩
    simp only [Bool.not_eq_true', List.any_eq_false] at hp
    have := hp (pyLower a.name) ((namesFold_mem found [] (pyLower a.name)).mpr
      (Or.inr ⟨a, ha, rfl⟩))
    simpa [matchesIdentifier] using this
  · rintro ⟨hm, hall⟩
    refine ⟨hm, ?_⟩
    simp only [Bool.not_eq_true', List.any_eq_false]
    intro fn hfn
    rcases (namesFold_mem found [] fn).mp hfn with h | ⟨a, ha, rfl⟩
    · simp at h
    · simpa [matchesIdentifier] using hall a ha

theorem scanEmails_eq_none_iff (frag ext : String) (l : List EmailMsg) :
    scanEmails frag ext l = none ↔
      ∀ m ∈ l, m.attachments.find? (attMatches frag ext) = none := by
  induction l with
  | nil => simp [scanEmails]
  | cons m rest ih =>
    by_cases hE : m.attachments.isEmpty
    · have hnil : m.attachments = [] := by simpa using hE
      unfold scanEmails
      rw [if_pos hE, ih]
      constructor
      · intro h m' hm'
        rcases List.mem_cons.mp hm' with rfl | hm'
        · simp [hnil]
        · exact h m' hm'
      · intro h m' hm'
        exact h m' (List.mem_cons_of_mem m hm')
    · unfold scanEmails
      rw [if_neg hE]
      cases hF : m.attachments.find? (attMatches frag ext) with
      | some a =>
        simp only [hF]
        constructor
        · intro h; cases h
        · intro h
          have := h m (List.mem_cons_self m rest)
          rw [hF] at this
          cases this
      | none =>
        simp only [hF, ih]
        constructor
        · intro h m' hm'
          rcases List.mem_cons.mp hm' with rfl | hm'
          · exact hF
          · exact h m' hm'
        · intro h m' hm'
          exact h m' (List.mem_cons_of_mem m hm')

theorem scanEmails_some_decomp (frag ext : String) (l : List EmailMsg) (a : Att)
    (h : scanEmails frag ext l = some a) :
    ∃ pre m post, l = pre ++ m :: post ∧
      m.attachments.find? (attMatches frag ext) = some a ∧
      ∀ m' ∈ pre, m'.attachments.find? (attMatches frag ext) = none := by
  induction l with
  | nil => cases h
  | cons m rest ih =>
    unfold scanEmails at h
    by_cases hE : m.attachments.isEmpty
    · have hnil : m.attachments = [] := by simpa using hE
      rw [if_pos hE] at h
      obtain ⟨pre, m', post, hl, hf, hpre⟩ := ih h
      refine ⟨m :: pre, m', post, by simp [hl], hf, ?_⟩
      intro x hx
      rcases List.mem_cons.mp hx with rfl | hx
      · simp [hnil]
      · exact hpre x hx
    · rw [if_neg hE] at h
      cases hF : m.attachments.find? (attMatches frag ext) with
      | some b =>
        rw [hF] at h
        cases h
        exact ⟨[], m, rest, rfl, hF, by simp⟩
      | none =>
        rw [hF] at h
        obtain ⟨pre, m', post, hl, hf, hpre⟩ := ih h
        refine ⟨m :: pre, m', post, by simp [hl], hf, ?_⟩
        intro x hx
        rcases List.mem_cons.mp hx with rfl | hx
        · exact hF
        · exact hpre x hx

theorem searchWindow_sorted (folder : FolderNode) (s e : Int) :
    List.Sorted recvGE (searchWindow folder s e) :=
  List.sorted_insertionSort recvGE _

theorem searchWindow_perm (folder : FolderNode) (s e : Int) :
    (searchWindow folder s e).Perm (folder.msgs.filter (windowPred s e)) :=
  List.perm_insertionSort recvGE _

theorem mem_searchWindow (folder : FolderNode) (s e : Int) (m : EmailMsg) :
    m ∈ searchWindow folder s e ↔ m ∈ folder.msgs ∧ windowPred s e m = true := by
  rw [(searchWindow_perm folder s e).mem_iff, List.mem_filter]

/-- With no store error, the per-identifier search returns nothing exactly
when no message of the folder inside the window carries an acceptable
attachment. -/
theorem find_single_none_iff (folder : FolderNode) (inv : String) (s e : Int) (ext : String) :
    find_single_invoice_attachment folder false inv s e ext = none ↔
      ∀ m ∈ folder.msgs, windowPred s e m = true →
        ∀ a ∈ m.attachments, attMatches (searchFragment inv) ext a = false := by
  show scanEmails (searchFragment inv) ext (searchWindow folder s e) = none ↔ _
  rw [scanEmails_eq_none_iff]
  constructor
  · intro h m hm hw a ha
    have := List.find?_eq_none.mp (h m ((mem_searchWindow folder s e m).mpr ⟨hm, hw⟩)) a ha
    exact Bool.eq_false_iff.mpr this
  · intro h m hm
    rw [List.find?_eq_none]
    intro a ha hpa
    obtain ⟨hmem, hw⟩ := (mem_searchWindow folder s e m).mp hm
    rw [h m hmem hw a ha] at hpa
    cases hpa

/-- A successfully returned attachment is acceptable and comes from a message
of the folder inside the window. -/
theorem find_single_some {folder : FolderNode} {inv : String} {s e : Int} {ext : String}
    {a : Att} (h : find_single_invoice_attachment folder false inv s e ext = some a) :
    attMatches (searchFragment inv) ext a = true ∧
      ∃ m ∈ folder.msgs, windowPred s e m = true ∧ a ∈ m.attachments := by
  have h' : scanEmails (searchFragment inv) ext (searchWindow folder s e) = some a := h
  obtain ⟨pre, m, post, hl, hf, _⟩ := scanEmails_some_decomp _ _ _ _ h'
  have hmem : m ∈ searchWindow folder s e := by
    rw [hl]; exact List.mem_append_right pre (List.mem_cons_self m post)
  obtain ⟨hmsgs, hw⟩ := (mem_searchWindow folder s e m).mp hmem
  exact ⟨List.find?_some hf, m, hmsgs, hw, List.mem_of_find?_eq_some hf⟩

theorem findRelatedLoop_mem_aux (folder : FolderNode) (s e : Int) (ext : String)
    (fail : String → Bool) (a : Att) :
    ∀ (l : List String) (acc : List Att),
      a ∈ l.foldl
          (fun acc inv =>
            match find_single_invoice_attachment folder (fail inv) inv s e ext with
            | some b => acc ++ [b]
            | none => acc)
          acc ↔
        a ∈ acc ∨ ∃ i ∈ l, find_single_invoice_attachment folder (fail i) i s e ext = some a := by
  intro l
  induction l with
  | nil => simp
  | cons i tl ih =>
    intro acc
    simp only [List.foldl_cons]
    cases hI : find_single_invoice_attachment folder (fail i) i s e ext with
    | some b =>
      simp only [hI]
      rw [ih (acc ++ [b])]
      constructor
      · rintro (hacc | ⟨j, hj, hja⟩)
        · rcases List.mem_append.mp hacc with h | h
          · exact Or.inl h
          · have hab : a = b := by simpa using h
            exact Or.inr ⟨i, List.mem_cons_self i tl, by rw [hI, hab]⟩
        · exact Or.inr ⟨j, List.mem_cons_of_mem i hj, hja⟩
      · rintro (h | ⟨j, hj, hja⟩)
        · exact Or.inl (List.mem_append_left _ h)
        · rcases List.mem_cons.mp hj with rfl | hj'
          · rw [hI] at hja
            cases hja
            exact Or.inl (List.mem_append_right _ (by simp))
          · exact Or.inr ⟨j, hj', hja⟩
    | none =>
      simp only [hI]
      rw [ih acc]
      constructor
      · rintro (h | ⟨j, hj, hja⟩)
        · exact Or.inl h
        · exact Or.inr ⟨j, List.mem_cons_of_mem i hj, hja⟩
      · rintro (h | ⟨j, hj, hja⟩)
        · exact Or.inl h
        · rcases List.mem_cons.mp hj with rfl | hj'
          · rw [hI] at hja; cases hja
          · exact Or.inr ⟨j, hj', hja⟩

/-- An attachment reaches the batch result exactly when some identifier's
search returned it. -/
theorem findRelatedLoop_mem (folder : FolderNode) (s e : Int) (ext : String)
    (fail : String → Bool) (extracted : List String) (a : Att) :
    a ∈ findRelatedLoop folder s e ext fail extracted ↔
      ∃ i ∈ extracted, find_single_invoice_attachment folder (fail i) i s e ext = some a := by
  unfold findRelatedLoop
  rw [findRelatedLoop_mem_aux]
  simp

theorem findRelatedLoop_length_aux (folder : FolderNode) (s e : Int) (ext : String)
    (fail : String → Bool) :
    ∀ (l : List String) (acc : List Att),
      (l.foldl
          (fun acc inv =>
            match find_single_invoice_attachment folder (fail inv) inv s e ext with
            | some b => acc ++ [b]
            | none => acc)
          acc).length ≤ acc.length + l.length := by
  intro l
  induction l with
  | nil => simp
  | cons i tl ih =>
    intro acc
    simp only [List.foldl_cons, List.length_cons]
    cases hI : find_single_invoice_attachment folder (fail i) i s e ext with
    | some b =>
      calc _ ≤ (acc ++ [b]).length + tl.length := ih (acc ++ [b])
        _ = acc.length + (tl.length + 1) := by simp [List.length_append]; omega
    | none =>
      calc _ ≤ acc.length + tl.length := ih acc
        _ ≤ acc.length + (tl.length + 1) := by omega

/-- The batch loop appends at most one attachment per identifier. -/
theorem findRelatedLoop_length (folder : FolderNode) (s e : Int) (ext : String)
    (fail : String → Bool) (extracted : List String) :
    (findRelatedLoop folder s e ext fail extracted).length ≤ extracted.length := by
  have := findRelatedLoop_length_aux folder s e ext fail extracted []
  simpa using this

/-! ### Scenario inputs -/

/-- The spec's Scenario B folder: one message carrying the candidate
filenames `inv_1001_copy.pdf` and `readme.txt`. -/
def scenarioBFolder : FolderNode :=
  .mk "Faktury" [⟨"Invoices", 10, true, [⟨true, "inv_1001_copy.pdf"⟩, ⟨true, "readme.txt"⟩]⟩] []

/-- A folder holding one in-window message with one matching attachment. -/
def monoFolder : FolderNode :=
  .mk "F" [⟨"a", 0, true, [⟨true, "inv_1.pdf"⟩]⟩] []

/-- A store whose inbox exists but has no child folder `Faktury`, so the
configured invoice folder path does not resolve. -/
def c1Store : MailStore :=
  { inbox := some (.mk "Inbox" [] []), sent := none, root := none }

/-- A store whose root resolves the invoice folder `Faktury`. -/
def c1GoodStore : MailStore :=
  { inbox := none, sent := none,
    root := some (.mk "root" [] [.mk "Faktury" [⟨"m", 0, true, [⟨true, "inv-1.pdf"⟩]⟩] []]) }

/-- Claim C1, evaluated at the failing input.  First conjunct: when the
configured invoice folder path does not resolve, `find_related_invoices`
propagates the `FolderNotFoundError` raised by `get_folder_by_path` out of
the batch as an exception — the batch is aborted with no result, contrary
to the claim (the `if not folder` handler of `email_service.py:62-64` is
unreachable because `get_folder_by_path` never returns `None`).  Second
conjunct: the other half of the claim does hold — a per-identifier
transient store error is absorbed by the `except` handler of
`_find_single_invoice_attachment`, every identifier is merely left
unmatched, and a result covering the whole batch is returned. -/
theorem claim_C1_eval :
    find_related_invoices c1Store ["INV-1"] 0 "Skrzynka odbiorcza/Faktury" 4 "pdf"
        (fun _ => false) = .error "Folder Faktury nie istnieje w Inbox" ∧
      find_related_invoices c1GoodStore ["INV-1", "INV-2"] 0 "Faktury" 4 "pdf"
        (fun _ => true) = .ok [] :=
  ⟨rfl, rfl⟩

/-- Claim C2: the missing list is the set difference of the extracted
identifiers and the matched ones.  First conjunct: over arbitrary inputs,
an identifier is reported missing exactly when it is extracted and matched
to none of the found attachments (matching by fragment inclusion in the
lowercased filename, the relation the code uses).  Second conjunct: when
the found list is the one the batch matcher produced (no store errors), an
identifier is reported missing exactly when it is extracted and its own
per-identifier search found nothing. -/
theorem claim_C2 :
    (∀ (extracted : List String) (found : List Att) (inv : String),
        inv ∈ find_missing_invoices extracted found ↔
          inv ∈ extracted ∧ ∀ a ∈ found, matchesIdentifier inv a = false) ∧
      ∀ (folder : FolderNode) (startD endD : Int) (ext : String)
        (extracted : List String) (inv : String),
        inv ∈ find_missing_invoices extracted
            (findRelatedLoop folder startD endD ext (fun _ => false) extracted) ↔
          inv ∈ extracted ∧
            find_single_invoice_attachment folder false inv startD endD ext = none := by
  refine ⟨missing_mem_iff, ?_⟩
  intro folder s e ext extracted inv
  rw [missing_mem_iff]
  constructor
  · rintro ⟨hmem, hall⟩
    refine ⟨hmem, ?_⟩
    cases hs : find_single_invoice_attachment folder false inv s e ext with
    | none => rfl
    | some a =>
      exfalso
      have haloop : a ∈ findRelatedLoop folder s e ext (fun _ => false) extracted :=
        (findRelatedLoop_mem folder s e ext (fun _ => false) extracted a).mpr ⟨inv, hmem, hs⟩
      have hmatch := hall a haloop
      have hp := (find_single_some hs).1
      unfold attMatches at hp
      simp only [Bool.and_eq_true] at hp
      unfold matchesIdentifier at hmatch
      rw [hp.2] at hmatch
      cases hmatch
  · rintro ⟨hmem, hnone⟩
    refine ⟨hmem, ?_⟩
    intro a ha
    obtain ⟨j, hj, hsome⟩ := (findRelatedLoop_mem folder s e ext (fun _ => false) extracted a).mp ha
    obtain ⟨hpj, m, hmm, hw, ham⟩ := find_single_some hsome
    by_contra hmatch
    have hmatchT : matchesIdentifier inv a = true := by
      cases hb : matchesIdentifier inv a
      · exact absurd hb hmatch
      · rfl
    have hPa : attMatches (searchFragment inv) ext a = true := by
      unfold attMatches at hpj ⊢
      simp only [Bool.and_eq_true] at hpj ⊢
      unfold matchesIdentifier at hmatchT
      exact ⟨⟨hpj.1.1, hpj.1.2⟩, hmatchT⟩
    have hfalse := (find_single_none_iff folder inv s e ext).mp hnone m hmm hw a ham
    rw [hPa] at hfalse
    cases hfalse

/-- Witness for claim C2 at a concrete input: an extracted identifier with
no found attachments is reported missing. -/
theorem claim_C2_witness :
    "INV-9" ∈ find_missing_invoices ["INV-9"] [] :=
  (claim_C2.1 ["INV-9"] [] "INV-9").mpr ⟨by decide, by simp⟩

/-- Claim C3, amended.  The per-identifier search traverses the window's
messages newest-first (first conjunct: the traversed sequence is sorted by
descending receive time and is a permutation of the in-window messages),
returns nothing exactly when no in-window attachment qualifies (second
conjunct), and otherwise returns the first qualifying attachment in
traversal order, examining no further candidate (third conjunct).  The
claim's concrete example is wrong, however: identifier `"INV-1001"`
derives fragment `"inv-1001"` — the hyphen is kept by the substitution —
which does not occur in `"inv_1001_copy.pdf"`, so against the candidate
filenames `["inv_1001_copy.pdf", "readme.txt"]` with extension `"pdf"`
the search matches nothing (fourth conjunct). -/
theorem claim_C3 :
    (∀ (folder : FolderNode) (s e : Int),
        List.Sorted recvGE (searchWindow folder s e) ∧
          (searchWindow folder s e).Perm (folder.msgs.filter (windowPred s e))) ∧
      (∀ (folder : FolderNode) (inv : String) (s e : Int) (ext : String),
        find_single_invoice_attachment folder false inv s e ext = none ↔
          ∀ m ∈ folder.msgs, windowPred s e m = true →
            ∀ a ∈ m.attachments, attMatches (searchFragment inv) ext a = false) ∧
      (∀ (folder : FolderNode) (inv : String) (s e : Int) (ext : String) (a : Att),
        find_single_invoice_attachment folder false inv s e ext = some a →
          ∃ pre m post, searchWindow folder s e = pre ++ m :: post ∧
            m.attachments.find? (attMatches (searchFragment inv) ext) = some a ∧
            ∀ m' ∈ pre, m'.attachments.find? (attMatches (searchFragment inv) ext) = none) ∧
      find_single_invoice_attachment scenarioBFolder false "INV-1001" 0 100 "pdf" = none := by
  refine ⟨fun folder s e => ⟨searchWindow_sorted folder s e, searchWindow_perm folder s e⟩,
    find_single_none_iff, ?_, by decide⟩
  intro folder inv s e ext a h
  exact scanEmails_some_decomp (searchFragment inv) ext (searchWindow folder s e) a h

/-- Counterexample to claim C3 as stated: at the claim's own input the
search does not yield `inv_1001_copy.pdf`. -/
theorem claim_C3_counterexample :
    find_single_invoice_attachment scenarioBFolder false "INV-1001" 0 100 "pdf" ≠
      some ⟨true, "inv_1001_copy.pdf"⟩ := by
  decide

/-- Witness for claim C3 at a concrete input: the first-hit decomposition
at a search that succeeds. -/
theorem claim_C3_witness :
    ∃ pre m post, searchWindow monoFolder 0 100 = pre ++ m :: post ∧
      m.attachments.find? (attMatches (searchFragment "INV 1") "pdf") =
        some ⟨true, "inv_1.pdf"⟩ ∧
      ∀ m' ∈ pre,
        m'.attachments.find? (attMatches (searchFragment "INV 1") "pdf") = none :=
  claim_C3.2.2.1 monoFolder "INV 1" 0 100 "pdf" ⟨true, "inv_1.pdf"⟩ (by decide)

theorem windowPred_mono {s1 s2 e : Int} (h : s2 ≤ s1) (m : EmailMsg)
    (hm : windowPred s1 e m = true) : windowPred s2 e m = true := by
  unfold windowPred at *
  simp only [Bool.and_eq_true, decide_eq_true_eq] at *
  exact ⟨⟨hm.1.1, le_trans h hm.1.2⟩, hm.2⟩

/-- Widening the window start (all else equal) preserves a successful
per-identifier search. -/
theorem find_single_mono (folder : FolderNode) (inv ext : String) {s1 s2 e : Int}
    (hs : s2 ≤ s1)
    (h : find_single_invoice_attachment folder false inv s1 e ext ≠ none) :
    find_single_invoice_attachment folder false inv s2 e ext ≠ none := by
  intro hnone
  apply h
  rw [find_single_none_iff]
  intro m hm hw a ha
  exact (find_single_none_iff folder inv s2 e ext).mp hnone m hm (windowPred_mono hs m hw) a ha

/-- Claim C7: matching is monotonic in the window width — increasing
`monthsBack` moves the window start earlier by 31 days per month while the
end stays `reference + 2 days`, and an identifier found under the narrower
window is still found under the wider one. -/
theorem claim_C7 (folder : FolderNode) (inv ext : String) (ref : Int) (m1 m2 : Nat)
    (hm : m1 ≤ m2)
    (hfound : find_single_invoice_attachment folder false inv
        (ref - days ((m1 : Int) * 31)) (ref + days 2) ext ≠ none) :
    find_single_invoice_attachment folder false inv
        (ref - days ((m2 : Int) * 31)) (ref + days 2) ext ≠ none := by
  apply find_single_mono folder inv ext _ hfound
  unfold days
  have hc : (m1 : Int) ≤ (m2 : Int) := Int.ofNat_le.mpr hm
  nlinarith

/-- Witness for claim C7 at a concrete input: a match found with
`monthsBack = 0` survives widening to `monthsBack = 1`. -/
theorem claim_C7_witness :
    find_single_invoice_attachment monoFolder false "INV 1"
        ((0 : Int) - days (((1 : Nat) : Int) * 31)) ((0 : Int) + days 2) "pdf" ≠ none :=
  claim_C7 monoFolder "INV 1" "pdf" 0 0 1 (by decide) (by decide)

/-- Claim C9: the batch matcher appends at most one attachment per
identifier, so any successfully returned batch result has at most as many
attachments as there were extracted identifiers. -/
theorem claim_C9 (store : MailStore) (extracted : List String) (reference_date : Int)
    (folder_path : String) (months_back : Nat) (file_extension : String)
    (storeFail : String → Bool) (l : List Att)
    (h : find_related_invoices store extracted reference_date folder_path months_back
        file_extension storeFail = .ok l) :
    l.length ≤ extracted.length := by
  unfold find_related_invoices at h
  split at h
  · injection h with h'
    rw [← h']
    simp
  · cases hg : get_folder_by_path store folder_path with
    | error e => rw [hg] at h; cases h
    | ok folder =>
      rw [hg] at h
      injection h with h'
      rw [← h']
      exact findRelatedLoop_length _ _ _ _ _ _

/-- Witness for claim C9 at a concrete input: with every per-identifier
query failing, the batch returns an empty list, no longer than the
identifier list. -/
theorem claim_C9_witness :
    ([] : List Att).length ≤ (["INV-1"] : List String).length :=
  claim_C9 c1GoodStore ["INV-1"] 0 "Faktury" 4 "pdf" (fun _ => true) [] rfl

/-! ### Identifier extraction (`pdf_processor.py`) -/

/-- `PDFProcessingError` raised for a missing extraction pattern
(`pdf_processor.py:41-42`). -/
inductive PdfError : Type where
  | noPattern
deriving DecidableEq

/-- The regex engine, abstracted: whether a pattern compiles (a malformed
pattern raises `re.error` from `re.findall`, which the code catches), and
the matches `re.findall(pattern, text, re.IGNORECASE)` yields. -/
structure RegexEngine where
  compileOk : String → Bool
  findAll : String → String → List String

/-- Is the first character whitespace? -/
def headIsSpace : List Char → Bool
  | [] => false
  | c :: _ => isPySpace c

/-- `PDFProcessor._clean_invoice_number` (`pdf_processor.py:132-149`): strip
the raw match; if it now ends in one or two digits preceded by whitespace
(the leftmost match of `(\s+\d{1,2})$`), drop those digits together with
the whole preceding whitespace run; strip again. -/
def clean_invoice_number (raw : String) : String :=
  let cleaned := pyStrip raw.toList
  let r := cleaned.reverse
  let ds := r.takeWhile isAsciiDigit
  let rest := r.dropWhile isAsciiDigit
  if ((ds.length = 1 || ds.length = 2) && headIsSpace rest) = true then
    String.mk (pyStrip (rest.dropWhile isPySpace).reverse)
  else String.mk cleaned

/-- `PDFProcessor._extract_text_from_page` (`pdf_processor.py:75-97`): a
page is its extracted text when extraction succeeds (`none` models a page
whose text extraction failed or returned nothing — logged and skipped);
non-empty text is whitespace-normalized by `" ".join(text.split())`. -/
def extract_text_from_page (page : Option String) : String :=
  match page with
  | none => ""
  | some text => if text = "" then "" else String.mk (joinWords (pyWords text.toList))

/-- `PDFProcessor._find_invoice_numbers_in_text` (`pdf_processor.py:99-130`):
on a compiling pattern, clean every match and insert the non-empty results
into a set; a malformed pattern raises `re.error`, which is caught and
logged, yielding the empty set. -/
def find_invoice_numbers_in_text (eng : RegexEngine) (text regex_pattern : String) :
    List String :=
  if eng.compileOk regex_pattern then
    (eng.findAll regex_pattern text).foldl
      (fun s raw =>
        let cleaned := clean_invoice_number raw
        if cleaned ≠ "" then pySetAdd s cleaned else s)
      []
  else []

/-- The page loop of `PDFProcessor.extract_invoice_numbers`
(`pdf_processor.py:52-59`): the accumulated identifier set, in insertion
order.  This list is also the "first-seen" order of the distinct
identifiers. -/
def extractedIdSet (eng : RegexEngine) (doc : List (Option String))
    (regex_pattern : String) : List String :=
  doc.foldl
    (fun acc page =>
      let text := extract_text_from_page page
      if text = "" then acc
      else (find_invoice_numbers_in_text eng text regex_pattern).foldl pySetAdd acc)
    []

/-- `PDFProcessor.extract_invoice_numbers` (`pdf_processor.py:21-73`), with
the cancellation event never signalled and the document given as its pages'
text-extraction results.  An empty pattern raises `PDFProcessingError`;
otherwise the final `list(invoice_numbers)` enumerates the set in CPython's
unspecified, hash-dependent order, modelled by the parameter `enum`
(constrained by the callers to permute its input). -/
def extract_invoice_numbers (eng : RegexEngine) (enum : List String → List String)
    (doc : List (Option String)) (regex_pattern : String) : Except PdfError (List String) :=
  if regex_pattern = "" then .error .noPattern
  else .ok (enum (extractedIdSet eng doc regex_pattern))

theorem foldl_pySetAdd_nodup :
    ∀ (l acc : List String), acc.Nodup → (l.foldl pySetAdd acc).Nodup := by
  intro l
  induction l with
  | nil => intro acc h; exact h
  | cons x tl ih =>
    intro acc h
    rw [List.foldl_cons]
    exact ih _ (pySetAdd_nodup acc x h)

/-- The accumulated identifier set holds each identifier at most once. -/
theorem extractedIdSet_nodup (eng : RegexEngine) (doc : List (Option String))
    (pat : String) : (extractedIdSet eng doc pat).Nodup := by
  unfold extractedIdSet
  suffices h : ∀ (d : List (Option String)) (acc : List String), acc.Nodup →
      (d.foldl
        (fun acc page =>
          let text := extract_text_from_page page
          if text = "" then acc
          else (find_invoice_numbers_in_text eng text pat).foldl pySetAdd acc)
        acc).Nodup from h doc [] List.nodup_nil
  intro d
  induction d with
  | nil => intro acc h; exact h
  | cons p tl ih =>
    intro acc h
    rw [List.foldl_cons]
    apply ih
    simp only
    split
    · exact h
    · exact foldl_pySetAdd_nodup _ _ h

/-- With a pattern that does not compile, every page contributes nothing. -/
theorem extractedIdSet_of_bad (eng : RegexEngine) (doc : List (Option String))
    (pat : String) (hbad : eng.compileOk pat = false) :
    extractedIdSet eng doc pat = [] := by
  have hfind : ∀ text, find_invoice_numbers_in_text eng text pat = [] := by
    intro text
    unfold find_invoice_numbers_in_text
    rw [hbad]
    simp
  unfold extractedIdSet
  suffices h : ∀ (d : List (Option String)) (acc : List String),
      d.foldl
        (fun acc page =>
          let text := extract_text_from_page page
          if text = "" then acc
          else (find_invoice_numbers_in_text eng text pat).foldl pySetAdd acc)
        acc = acc from h doc []
  intro d
  induction d with
  | nil => intro acc; rfl
  | cons p tl ih =>
    intro acc
    rw [List.foldl_cons]
    have hstep : (let text := extract_text_from_page p
        if text = "" then acc
        else (find_invoice_numbers_in_text eng text pat).foldl pySetAdd acc) = acc := by
      simp only
      split
      · rfl
      · rw [hfind]
        rfl
    rw [hstep, ih]

/-- Claim C4: the two bad-pattern cases are asymmetric.  First conjunct: an
empty pattern raises `PDFProcessingError` and yields no identifier set.
Second conjunct: a non-empty pattern that fails to compile raises nothing
— the per-page `re.error` handler turns it into an empty contribution —
and the run yields the empty identifier set. -/
theorem claim_C4 :
    (∀ (eng : RegexEngine) (enum : List String → List String) (doc : List (Option String)),
        extract_invoice_numbers eng enum doc "" = .error .noPattern) ∧
      ∀ (eng : RegexEngine) (enum : List String → List String) (doc : List (Option String))
        (regex_pattern : String),
        regex_pattern ≠ "" → eng.compileOk regex_pattern = false →
          (∀ l, (enum l).Perm l) →
          extract_invoice_numbers eng enum doc regex_pattern = .ok [] := by
  constructor
  · intro eng enum doc
    rfl
  · intro eng enum doc pat hne hbad henum
    unfold extract_invoice_numbers
    rw [if_neg hne, extractedIdSet_of_bad eng doc pat hbad,
      List.Perm.eq_nil (henum [])]

/-- Witness for claim C4 at a concrete input: the malformed pattern `"("`
yields an empty result without raising. -/
theorem claim_C4_witness :
    extract_invoice_numbers { compileOk := fun _ => false, findAll := fun _ _ => [] }
        id [some "text"] "(" = .ok [] :=
  claim_C4.2 { compileOk := fun _ => false, findAll := fun _ _ => [] } id [some "text"] "("
    (by decide) rfl (fun l => List.Perm.refl l)

/-- Claim C6, amended: extraction is a pure function of its inputs (two
runs with the same inputs and the same set-enumeration behaviour agree),
and every returned list holds each distinct identifier exactly once and is
a permutation of the first-seen-ordered identifier set — but its order is
the set's unspecified iteration order, not necessarily first-seen order. -/
theorem claim_C6 (eng : RegexEngine) (enum : List String → List String)
    (doc : List (Option String)) (regex_pattern : String) (l : List String)
    (henum : ∀ l', (enum l').Perm l')
    (h : extract_invoice_numbers eng enum doc regex_pattern = .ok l) :
    l.Nodup ∧ l.Perm (extractedIdSet eng doc regex_pattern) := by
  unfold extract_invoice_numbers at h
  split at h
  · cases h
  · injection h with h'
    subst h'
    have hperm := henum (extractedIdSet eng doc regex_pattern)
    exact ⟨hperm.nodup_iff.mpr (extractedIdSet_nodup eng doc regex_pattern), hperm⟩

/-- Engine and document for the claim C6 counterexample. -/
def ceEng : RegexEngine :=
  { compileOk := fun _ => true, findAll := fun _ _ => ["INV-1001", "INV-1002"] }

def ceDoc : List (Option String) :=
  [some "Invoice INV-1001 due. Ref INV-1002."]

/-- Counterexample to claim C6 as stated: the returned list need not be in
first-seen order.  `list(set)` enumerates the set in an unspecified order;
with an enumeration that reverses the insertion order — a legitimate set
iteration order — the two extracted identifiers come back reversed, not
first-seen ordered. -/
theorem claim_C6_counterexample :
    ¬ ∀ (enum : List String → List String), (∀ l, (enum l).Perm l) →
        ∀ l, extract_invoice_numbers ceEng enum ceDoc "INV" = .ok l →
          l = extractedIdSet ceEng ceDoc "INV" := by
  intro h
  have hrev := h List.reverse (fun l => l.reverse_perm) ["INV-1002", "INV-1001"] rfl
  have hset : extractedIdSet ceEng ceDoc "INV" = ["INV-1001", "INV-1002"] := rfl
  rw [hset] at hrev
  exact absurd hrev (by decide)

/-- Witness for claim C6 at a concrete input. -/
theorem claim_C6_witness :
    (["INV-1001", "INV-1002"] : List String).Nodup ∧
      (["INV-1001", "INV-1002"] : List String).Perm (extractedIdSet ceEng ceDoc "INV") :=
  claim_C6 ceEng id ceDoc "INV" ["INV-1001", "INV-1002"] (fun l => List.Perm.refl l) rfl

/-! ### Email templates (`models.py`)

A template string is embedded as its parsed parts: literal runs and named
placeholders (`{name}`), the only template shapes this program uses.  A
value of the keyword-data map is a string, an integer or a list of
strings, the three shapes the callers pass. -/

inductive TPart : Type where
  | lit (s : String)
  | hole (name : String)
deriving DecidableEq

inductive PyVal : Type where
  | str (v : String)
  | int (v : Nat)
  | strList (v : List String)
deriving DecidableEq

/-- A single-quote character, kept out of string literals. -/
def sglQuote : String := String.singleton (Char.ofNat 39)

/-- Rendering of a value interpolated into a template (`str()`). -/
def pyValStr : PyVal → String
  | .str v => v
  | .int v => toString v
  | .strList v => "[" ++ String.intercalate ", " (v.map (fun s => sglQuote ++ s ++ sglQuote)) ++ "]"

/-- Python truthiness of a value. -/
def pyTruthy : PyVal → Bool
  | .str v => v ≠ ""
  | .int v => v ≠ 0
  | .strList v => !v.isEmpty

/-- Iterating a value (used by the list joins); only lists are iterated by
the callers. -/
def pyIter : PyVal → List String
  | .strList l => l
  | .str s => s.toList.map (fun c => String.mk [c])
  | .int _ => []

/-- Key lookup in a keyword map (first binding wins). -/
def kwLookup (kw : List (String × PyVal)) (k : String) : Option PyVal :=
  (kw.find? (fun p => p.1 = k)).map (·.2)

/-- Dictionary assignment `d[k] = v` (the new binding shadows any old one
under `kwLookup`). -/
def dictSet (d : List (String × PyVal)) (k : String) (v : PyVal) : List (String × PyVal) :=
  (k, v) :: d

/-- `"\n".join(f"  - {nr}" for nr in l)`. -/
def bulletJoin (l : List String) : String :=
  String.intercalate "\n" (l.map (fun nr => "  - " ++ nr))

/-- The format dictionary built by `EmailTemplate.format`
(`models.py:154-172`): the keyword data, plus the derived bullet list of
the compensation invoice numbers, the missing-invoice information block
(empty when no missing invoices were passed or the value is falsy), and
the user name derived from the Exchange user when absent. -/
def buildFormatDict (kw : List (String × PyVal)) : List (String × PyVal) :=
  let d1 :=
    match kwLookup kw "numery_faktur_z_kompensaty" with
    | some (.strList l) =>
      dictSet kw "numery_faktur_z_kompensaty_lista" (.str (bulletJoin l))
    | _ => kw
  let d2 :=
    match kwLookup kw "numery_brakujace" with
    | some v =>
      if pyTruthy v then
        dictSet d1 "brakujace_faktury_info"
          (.str ("\nNie udało się odnaleźć następujących faktur:\n" ++ bulletJoin (pyIter v)))
      else dictSet d1 "brakujace_faktury_info" (.str "")
    | none => dictSet d1 "brakujace_faktury_info" (.str "")
  match kwLookup d2 "nazwa_uzytkownika", kwLookup kw "exchange_username" with
  | none, some v =>
    let username := pyValStr v
    dictSet d2 "nazwa_uzytkownika"
      (.str (if username.toList.contains '@' then
          String.mk ((splitOnChar '@' username.toList).headD [])
        else username))
  | _, _ => d2

/-- `str.format_map` over parsed template parts: a placeholder whose key
the lookup cannot supply raises `KeyError` (the `Except.error` case). -/
def format_map_strict (lookup : String → Option PyVal) : List TPart → Except String String
  | [] => .ok ""
  | .lit s :: rest =>
    match format_map_strict lookup rest with
    | .ok r => .ok (s ++ r)
    | .error k => .error k
  | .hole k :: rest =>
    match lookup k with
    | none => .error k
    | some v =>
      match format_map_strict lookup rest with
      | .ok r => .ok (pyValStr v ++ r)
      | .error e => .error e

/-- `EmailTemplate` (`models.py:138-177`): a subject and a body template. -/
structure EmailTemplate where
  subject : List TPart
  body : List TPart
deriving DecidableEq

/-- The `defaultdict(lambda: '', kwargs)` lookup: every key resolves, an
unbound key to the empty string. -/
def defaultLookup (d : List (String × PyVal)) (k : String) : Option PyVal :=
  some ((kwLookup d k).getD (.str ""))

/-- `EmailTemplate.format` (`models.py:144-177`): build the format
dictionary, render subject and body with the defaulting lookup, and return
a new template holding the rendered strings (the original is untouched). -/
def EmailTemplate.format (t : EmailTemplate) (kw : List (String × PyVal)) :
    Except String EmailTemplate :=
  let fd := buildFormatDict kw
  match format_map_strict (defaultLookup fd) t.subject,
      format_map_strict (defaultLookup fd) t.body with
  | .ok s, .ok b => .ok ⟨[.lit s], [.lit b]⟩
  | .error k, _ => .error k
  | _, .error k => .error k

/-- Rendering with the defaulting lookup never raises. -/
theorem format_map_default_total (d : List (String × PyVal)) :
    ∀ parts : List TPart, ∃ s, format_map_strict (defaultLookup d) parts = .ok s := by
  intro parts
  induction parts with
  | nil => exact ⟨"", rfl⟩
  | cons p rest ih =>
    obtain ⟨s, hs⟩ := ih
    cases p with
    | lit t =>
      refine ⟨t ++ s, ?_⟩
      show (match format_map_strict (defaultLookup d) rest with
            | .ok r => Except.ok (t ++ r)
            | .error k => Except.error k) = Except.ok (t ++ s)
      rw [hs]
    | hole k =>
      refine ⟨pyValStr ((kwLookup d k).getD (.str "")) ++ s, ?_⟩
      show (match format_map_strict (defaultLookup d) rest with
            | .ok r => Except.ok (pyValStr ((kwLookup d k).getD (.str "")) ++ r)
            | .error e => Except.error e) =
          Except.ok (pyValStr ((kwLookup d k).getD (.str "")) ++ s)
      rw [hs]

/-- Claim C10: template rendering is total.  First conjunct: `format` never
raises, for every template and keyword map.  Second conjunct: a
placeholder whose key is absent from the format dictionary renders as the
empty string.  (In this embedding values are immutable, so the original
template is unmodified by construction; `format` returns a new
`EmailTemplate` holding the rendered strings.) -/
theorem claim_C10 :
    (∀ (t : EmailTemplate) (kw : List (String × PyVal)), ∃ r, t.format kw = .ok r) ∧
      ∀ (kw : List (String × PyVal)) (k : String),
        kwLookup (buildFormatDict kw) k = none →
          EmailTemplate.format ⟨[.hole k], [.hole k]⟩ kw = .ok ⟨[.lit ""], [.lit ""]⟩ := by
  constructor
  · intro t kw
    obtain ⟨s, hs⟩ := format_map_default_total (buildFormatDict kw) t.subject
    obtain ⟨b, hb⟩ := format_map_default_total (buildFormatDict kw) t.body
    refine ⟨⟨[.lit s], [.lit b]⟩, ?_⟩
    show (match format_map_strict (defaultLookup (buildFormatDict kw)) t.subject,
          format_map_strict (defaultLookup (buildFormatDict kw)) t.body with
        | .ok s, .ok b => Except.ok (⟨[.lit s], [.lit b]⟩ : EmailTemplate)
        | .error k, _ => Except.error k
        | _, .error k => Except.error k) = Except.ok ⟨[.lit s], [.lit b]⟩
    rw [hs, hb]
  · intro kw k hk
    have hrender : format_map_strict (defaultLookup (buildFormatDict kw)) [.hole k] =
        .ok "" := by
      show (match defaultLookup (buildFormatDict kw) k with
            | none => Except.error k
            | some v =>
              match format_map_strict (defaultLookup (buildFormatDict kw)) ([] : List TPart) with
              | .ok r => Except.ok (pyValStr v ++ r)
              | .error e => Except.error e) = Except.ok ""
      rw [show defaultLookup (buildFormatDict kw) k = some (.str "") from by
        unfold defaultLookup
        rw [hk]
        rfl]
      rfl
    show (match format_map_strict (defaultLookup (buildFormatDict kw)) [.hole k],
          format_map_strict (defaultLookup (buildFormatDict kw)) [.hole k] with
        | .ok s, .ok b => Except.ok (⟨[.lit s], [.lit b]⟩ : EmailTemplate)
        | .error k, _ => Except.error k
        | _, .error k => Except.error k) = Except.ok ⟨[.lit ""], [.lit ""]⟩
    rw [hrender]

/-- Witness for claim C10 at a concrete input: an unknown placeholder
renders as the empty string. -/
theorem claim_C10_witness :
    EmailTemplate.format ⟨[.hole "unknown_key"], [.hole "unknown_key"]⟩ [] =
      .ok ⟨[.lit ""], [.lit ""]⟩ :=
  claim_C10.2 [] "unknown_key" (by decide)

/-! ### Orchestrator (`email_processor.py`)

`process_emails` is embedded over the state of the source compensation
message in the store (its folder and read flag) and an environment of
collaborator outcomes: the located compensation message, the extraction
result, the batch-matching result (which, per `find_related_invoices`
above, can be a propagated exception), and the Boolean outcomes of the
store's send / move / mark-read calls.  The notification sends (steps 4a
and the missing-PDF notification) create new outgoing messages and never
touch the source message's state, so they do not act on `StoreState`;
their best-effort outcomes are carried in the environment but ignored by
the control flow, as in the source. -/

/-- The store-visible state of the source compensation message. -/
structure StoreState where
  srcFolder : String
  srcRead : Bool
deriving DecidableEq

/-- Outcomes of the collaborators during one run. -/
structure OrchEnv where
  compensation : Option (String × String)
  extractOutcome : Except String (List String)
  relatedOutcome : Except String (List Att)
  notifyMissingOk : Bool
  notifyPartialOk : Bool
  sendAccountingOk : Bool
  moveOk : Bool
  markReadOk : Bool

/-- `ExchangeClient.mark_as_read` (`exchange_client.py:291-309`): sets the
read flag unless already set; a failing save leaves the store state
unchanged and reports failure. -/
def mark_as_read (ok : Bool) (s : StoreState) : Bool × StoreState :=
  if s.srcRead then (true, s)
  else if ok then (true, { s with srcRead := true })
  else (false, s)

/-- `ExchangeClient.move_email` (`exchange_client.py:311-334`): moves the
message when the store call succeeds, else leaves it and reports failure. -/
def move_email (ok : Bool) (dest : String) (s : StoreState) : Bool × StoreState :=
  if ok then (true, { s with srcFolder := dest })
  else (false, s)

/-- The configured processed-messages folder (`config.folders.przetworzone`). -/
def przetworzoneFolder : String := "Przetworzone"

/-- `EmailService.move_email_to_processed_folder`
(`email_service.py:361-381`): try the move; on failure fall back to
marking the message read, still reporting the move's failure. -/
def move_email_to_processed_folder (moveOk markOk : Bool) (s : StoreState) :
    Bool × StoreState :=
  let p := move_email moveOk przetworzoneFolder s
  if p.1 then p
  else (p.1, (mark_as_read markOk p.2).2)

/-- `ProcessingResult` (`models.py:127-135`). -/
structure ProcessingResult where
  success : Bool
  message : String
  email_subject : Option String := none
  extracted_data : List String := []
  found_attachments_count : Nat := 0
  missing_invoices : List String := []
deriving DecidableEq

/-- `EmailProcessor.process_emails` (`email_processor.py:36-132`), with the
cancellation event never signalled, following the source's control flow:
no compensation message found ends the run as a failure; an extraction
error is caught by the catch-all handler as a critical failure; zero
identifiers triggers the missing-PDF notification and archival
(`_handle_no_data_extracted`); an exception escaping the matching step is
caught by the catch-all handler as a critical failure; otherwise the
partial notification is attempted when needed (no source-message effect),
the accounting email is sent, and only on reported delivery success is
the source message moved to the processed folder; the outcome's success
flag is exactly the delivery report. -/
def process_emails (env : OrchEnv) (s : StoreState) : ProcessingResult × StoreState :=
  match env.compensation with
  | none =>
    ({ success := false,
       message := "Nie znaleziono głównego emaila z kompensatą zgodnie z kryteriami" }, s)
  | some (subj, _pdfName) =>
    match env.extractOutcome with
    | .error e => ({ success := false, message := "Błąd krytyczny: " ++ e }, s)
    | .ok extracted =>
      if extracted.isEmpty then
        let s1 := (move_email_to_processed_folder env.moveOk env.markReadOk s).2
        ({ success := false,
           message := "Nie udało się wyekstrahować danych z PDF. Wysłano powiadomienie.",
           email_subject := some subj }, s1)
      else
        match env.relatedOutcome with
        | .error e => ({ success := false, message := "Błąd krytyczny: " ++ e }, s)
        | .ok found =>
          let email_sent := env.sendAccountingOk
          if email_sent then
            let s1 := (move_email_to_processed_folder env.moveOk env.markReadOk s).2
            ({ success := true,
               message := "Przetwarzanie zakończone pomyślnie.",
               email_subject := some subj,
               extracted_data := extracted,
               found_attachments_count := found.length,
               missing_invoices := find_missing_invoices extracted found }, s1)
          else
            ({ success := false,
               message := "Błąd wysyłania emaila do księgowej. Email nie został przeniesiony.",
               email_subject := some subj,
               extracted_data := extracted,
               found_attachments_count := found.length,
               missing_invoices := find_missing_invoices extracted found }, s)

/-- Claim C8: when delivery of the accounting email reports failure, the
run performs no move and no mark-as-read on the source compensation
message — its store state is exactly the initial one — and the run's
outcome is a failure. -/
theorem claim_C8 (env : OrchEnv) (s : StoreState) (subj pdfName : String)
    (extracted : List String) (found : List Att)
    (hc : env.compensation = some (subj, pdfName))
    (he : env.extractOutcome = .ok extracted)
    (hne : extracted ≠ [])
    (hr : env.relatedOutcome = .ok found)
    (hsend : env.sendAccountingOk = false) :
    (process_emails env s).1.success = false ∧ (process_emails env s).2 = s := by
  obtain ⟨comp, eo, ro, nm, np, sa, mo, mr⟩ := env
  have hc' : comp = some (subj, pdfName) := hc
  have he' : eo = .ok extracted := he
  have hr' : ro = .ok found := hr
  have hs' : sa = false := hsend
  subst hc' he' hr' hs'
  cases extracted with
  | nil => exact absurd rfl hne
  | cons a tl => exact ⟨rfl, rfl⟩

/-- Environment for the claim C8 witness: delivery reports failure. -/
def c8Env : OrchEnv :=
  { compensation := some ("Kompensata 10/2024", "kompensata.pdf"),
    extractOutcome := .ok ["INV-1"],
    relatedOutcome := .ok [],
    notifyMissingOk := true,
    notifyPartialOk := true,
    sendAccountingOk := false,
    moveOk := true,
    markReadOk := true }

/-- Witness for claim C8 at a concrete input: with failing delivery, the
outcome is a failure and the source message's state is untouched. -/
theorem claim_C8_witness :
    (process_emails c8Env ⟨"Kompensaty", false⟩).1.success = false ∧
      (process_emails c8Env ⟨"Kompensaty", false⟩).2 = ⟨"Kompensaty", false⟩ :=
  claim_C8 c8Env ⟨"Kompensaty", false⟩ "Kompensata 10/2024" "kompensata.pdf" ["INV-1"] []
    rfl rfl (by decide) rfl rfl
